import Mathlib

/-!
Shallow embedding of the algorithmic core of the MP Waste Dashboard
(`main.py`): safe numeric coercion, district lookup, population forecast,
waste ratios, and the fleet-sizing optimizer, together with theorems about
the specified properties.  Machine floats are modelled by exact rationals
(and by reals where the code takes fractional powers); a Python exception
is modelled by `Option.none`.
-/

namespace MPWaste

/-- A raw cell value as produced by the pandas row for a district: an
explicit null (Python `None`, also what `row.get` yields for an absent
column), a float NaN, a numeric value, or a present value that `float()`
cannot coerce (e.g. a non-numeric string). -/
inductive RawValue where
  | null
  | nan
  | num (q : ℚ)
  | nonNumeric
deriving DecidableEq

/-- `pd.notna`: `false` exactly on None/NaN. -/
def pdNotna : RawValue → Bool
  | RawValue.null => false
  | RawValue.nan => false
  | RawValue.num _ => true
  | RawValue.nonNumeric => true

/-- Python `float(val)`: succeeds on numeric values and raises (modelled as
`none`) on a value it cannot coerce.  (`float` of None or NaN is
unreachable under the `pdNotna` guard in `safe`; NaN has no exact rational
counterpart.) -/
def pyFloat : RawValue → Option ℚ
  | RawValue.num q => some q
  | _ => none

/-- `safe(val)` = `float(val) if pd.notna(val) else 0.0` (main.py lines
40-41).  A `none` result models an uncaught exception escaping `safe`. -/
def safe (v : RawValue) : Option ℚ :=
  if pdNotna v then pyFloat v else some 0

/-- Percent processed: `(sw_proc / sw_gen * 100) if sw_gen > 0 else 0`,
then capped at 100 (main.py lines 248-250). -/
def processed_percent (sw_gen sw_proc : ℚ) : ℚ :=
  if 100 < (if 0 < sw_gen then sw_proc / sw_gen * 100 else 0) then 100
  else if 0 < sw_gen then sw_proc / sw_gen * 100 else 0

/-- Pie-chart processed share: `min(sw_proc, sw_gen)` (main.py line 404). -/
def proc_pie (sw_gen sw_proc : ℚ) : ℚ := min sw_proc sw_gen

/-- Pie-chart gap share: `sw_gen - proc_pie` (main.py line 405). -/
def gap_pie (sw_gen sw_proc : ℚ) : ℚ := sw_gen - proc_pie sw_gen sw_proc

/-- Python `str.lower()` over the characters of a string. -/
def pyLower (s : List Char) : List Char := s.map Char.toLower

/-- Python `str.strip()`: drops leading and trailing whitespace. -/
def pyStrip (s : List Char) : List Char :=
  ((s.dropWhile Char.isWhitespace).reverse.dropWhile Char.isWhitespace).reverse

/-- `name.lower().strip()`, the normal form used on both sides of the
district lookup comparison (main.py line 237). -/
def normalizeName (s : String) : List Char := pyStrip (pyLower s.data)

/-- Compound annual growth rate (main.py lines 283-286):
`(pop_2025 / census_pop) ** (1 / (2025 - 2011)) - 1` when the census
population is positive, else `0`. -/
noncomputable def CAGR (census_pop pop_2025 : ℝ) : ℝ :=
  if 0 < census_pop then (pop_2025 / census_pop) ^ ((1 : ℝ) / (2025 - 2011)) - 1
  else 0

/-- `years = list(range(2025, 2031))` (main.py line 287). -/
def years : List ℕ := List.range' 2025 6

/-- `[pop_2025 * ((1 + CAGR) ** (year - 2025)) for year in years]`
(main.py line 288). -/
noncomputable def pop_forecast_values (census_pop pop_2025 : ℝ) : List ℝ :=
  years.map fun year => pop_2025 * (1 + CAGR census_pop pop_2025) ^ (year - 2025)

/-- Vehicle catalog of this deployment, `(capacity in TPD, daily cost)` for
bulk trucks (20 t, 2354), mini LCVs (3.8 t, 1926) and tri-cycle trolleys
(0.5 t, 913) (main.py lines 475-482). -/
def deploymentCatalog : List (ℚ × ℚ) := [(20, 2354), (19/5, 1926), (1/2, 913)]

/-- Total capacity of a count vector against a catalog:
`Σ capacity_i * count_i`. -/
def totalCapacity (catalog : List (ℚ × ℚ)) (counts : List ℕ) : ℚ :=
  (List.zipWith (fun (v : ℚ × ℚ) (c : ℕ) => v.1 * (c : ℚ)) catalog counts).sum

/-- Total daily cost of a count vector against a catalog:
`Σ cost_i * count_i`. -/
def totalCost (catalog : List (ℚ × ℚ)) (counts : List ℕ) : ℚ :=
  (List.zipWith (fun (v : ℚ × ℚ) (c : ℕ) => v.2 * (c : ℚ)) catalog counts).sum

/-- A count vector is feasible for required capacity `R` when it has one
count per vehicle type and its total capacity covers `R`. -/
def Feasible (R : ℚ) (catalog : List (ℚ × ℚ)) (counts : List ℕ) : Prop :=
  counts.length = catalog.length ∧ R ≤ totalCapacity catalog counts

/-- Enumeration bound for one vehicle type: `ceil(R / capacity)` vehicles of
a positive-capacity type always cover `R` on their own. -/
def perTypeBound (R cap : ℚ) : ℕ := (⌈R / cap⌉).toNat

/-- All count vectors bounded componentwise by the given bounds. -/
def tuples : List ℕ → List (List ℕ)
  | [] => [[]]
  | b :: bs => (List.range (b + 1)).flatMap fun c => (tuples bs).map fun t => c :: t

/-- Per-type enumeration bounds for a whole catalog. -/
def vbounds (R : ℚ) (catalog : List (ℚ × ℚ)) : List ℕ :=
  catalog.map fun v => perTypeBound R v.1

/-- Bounded count vectors that satisfy the capacity constraint. -/
def candidates (R : ℚ) (catalog : List (ℚ × ℚ)) : List (List ℕ) :=
  (tuples (vbounds R catalog)).filter fun t => decide (R ≤ totalCapacity catalog t)

/-- Modelled from the spec: the repository hands the integer program
`minimize Σ cost_i * count_i subject to Σ capacity_i * count_i ≥ R,
count_i ∈ ℕ` to the external `pulp` MILP solver (main.py lines 484-506),
whose code is not part of the repository.  Following the specification
(§4.4), the solve is modelled as an exact bounded enumeration: the
`requiredCapacity ≤ 0` base case yields the all-zero plan at cost 0, and
otherwise every count vector bounded componentwise by
`ceil(R / capacity_i)` is enumerated and a feasible vector of minimum cost
is returned together with its exact dot-product cost; `none` models the
`Infeasible` outcome. -/
def optimize (R : ℚ) (catalog : List (ℚ × ℚ)) : Option (List ℕ × ℚ) :=
  if R ≤ 0 then some (catalog.map fun _ => 0, 0)
  else
    match (candidates R catalog).argmin (totalCost catalog) with
    | some t => some (t, totalCost catalog t)
    | none => none

/-- The raw attribute cells read from a district row by the callback. -/
structure RawRow where
  census_pop : RawValue
  sw_gen : RawValue
  sw_proc : RawValue
  sw_gap : RawValue
  sewage_gen : RawValue
  growth_rate : RawValue
  pop_2025 : RawValue
  pw : RawValue
  cd : RawValue
  ew : RawValue
deriving DecidableEq

/-- The numeric content of the rendered dashboard sections for one
district: every resolved attribute together with every derived quantity
that appears in a returned section, KPI card, chart or the optimizer
output. -/
structure Report where
  census_pop : ℚ
  sw_gen : ℚ
  sw_proc : ℚ
  sw_gap : ℚ
  percent : ℚ
  sewage_gen : ℚ
  pop_2025 : ℚ
  forecast : List ℝ
  pieProcessed : ℚ
  pieGap : ℚ
  plan : Option (List ℕ × ℚ)
  pw : ℚ
  cd : ℚ
  ew_daily : ℚ

/-- The pure computation of `update_dashboard` (main.py lines 242-618) for
one matched row, in the source's extraction order; `none` models an
exception escaping the callback.  The duplicate re-extraction of
`sw_gen`/`sw_proc`/`sw_gap` at lines 362-364 repeats lines 245-247 verbatim
and is not modelled twice.  The required capacity fed to the optimizer is
`W = sw_gen` (line 472). -/
noncomputable def buildReport (row : RawRow) : Option Report :=
  (safe row.census_pop).bind fun census_pop =>
  (safe row.sw_gen).bind fun sw_gen =>
  (safe row.sw_proc).bind fun sw_proc =>
  (safe row.sw_gap).bind fun sw_gap =>
  (safe row.sewage_gen).bind fun sewage_gen =>
  (safe row.growth_rate).bind fun _growth_rate =>
  (safe row.pop_2025).bind fun pop_2025 =>
  (safe row.pw).bind fun pw =>
  (safe row.cd).bind fun cd =>
  (safe row.ew).bind fun ew_tpa =>
  some
    { census_pop := census_pop
      sw_gen := sw_gen
      sw_proc := sw_proc
      sw_gap := sw_gap
      percent := processed_percent sw_gen sw_proc
      sewage_gen := sewage_gen
      pop_2025 := pop_2025
      forecast := pop_forecast_values (census_pop : ℝ) (pop_2025 : ℝ)
      pieProcessed := proc_pie sw_gen sw_proc
      pieGap := gap_pie sw_gen sw_proc
      plan := optimize sw_gen deploymentCatalog
      pw := pw
      cd := cd
      ew_daily := ew_tpa / 365 }

/-- The four outputs of the callback collapse to one value: a placeholder
before any click, a distinct no-data state, a rendered report, or an
uncaught exception. -/
inductive DashOutput where
  | placeholder
  | noData
  | report (district_name : String) (r : Report)
  | uncaughtError

/-- `match_row = df[df["District"].str.lower().str.strip() ==
district_name.lower().strip()]` followed by `match_row.iloc[0]`
(main.py lines 237, 242): the first stored row whose normalized name
equals the normalized query. -/
def lookup_district (db : List (String × RawRow)) (q : String) : Option RawRow :=
  (db.find? fun p => normalizeName p.1 == normalizeName q).map Prod.snd

/-- The `update_dashboard` callback (main.py lines 230-618): placeholder
without click data, the no-data state when the lookup comes back empty,
otherwise the report built from the first matching row. -/
noncomputable def updateDashboard (db : List (String × RawRow)) (click : Option String) :
    DashOutput :=
  match click with
  | none => DashOutput.placeholder
  | some district_name =>
    match lookup_district db district_name with
    | none => DashOutput.noData
    | some row =>
      match buildReport row with
      | none => DashOutput.uncaughtError
      | some r => DashOutput.report district_name r

/-- A fully numeric sample row, used as a concrete input by witnesses. -/
def okRow : RawRow :=
  { census_pop := RawValue.num 100000
    sw_gen := RawValue.num 100
    sw_proc := RawValue.num 40
    sw_gap := RawValue.num 60
    sewage_gen := RawValue.num 12
    growth_rate := RawValue.num 5
    pop_2025 := RawValue.num 120000
    pw := RawValue.num 3
    cd := RawValue.num 2
    ew := RawValue.num 365 }

/-- Sample row with a negative generation cell. -/
def negRow : RawRow := { okRow with sw_gen := RawValue.num (-5) }

/-- One-district table that does not match the query `"bhopal"`. -/
def demoDbOther : List (String × RawRow) := [("Indore", okRow)]

/-- One-district table whose stored name matches `" BHOPAL "` only up to
case and surrounding whitespace. -/
def demoDbBhopal : List (String × RawRow) := [("Bhopal", okRow)]

/-- Helper shared by the report-level theorems: a successfully built report
stores exactly the safe coercion of every raw attribute, and every derived
quantity is computed from those stored attributes. -/
theorem buildReport_fields (row : RawRow) (r : Report) (h : buildReport row = some r) :
    safe row.census_pop = some r.census_pop ∧
    safe row.sw_gen = some r.sw_gen ∧
    safe row.sw_proc = some r.sw_proc ∧
    safe row.sw_gap = some r.sw_gap ∧
    safe row.sewage_gen = some r.sewage_gen ∧
    safe row.pop_2025 = some r.pop_2025 ∧
    safe row.pw = some r.pw ∧
    safe row.cd = some r.cd ∧
    (safe row.ew).map (fun q => q / 365) = some r.ew_daily ∧
    r.percent = processed_percent r.sw_gen r.sw_proc ∧
    r.pieProcessed = proc_pie r.sw_gen r.sw_proc ∧
    r.pieGap = gap_pie r.sw_gen r.sw_proc ∧
    r.forecast = pop_forecast_values (r.census_pop : ℝ) (r.pop_2025 : ℝ) ∧
    r.plan = optimize r.sw_gen deploymentCatalog := by
  simp only [buildReport, Option.bind_eq_some, Option.some.injEq] at h
  obtain ⟨c1, h1, c2, h2, c3, h3, c4, h4, c5, h5, c6, h6, c7, h7, c8, h8, c9, h9, c10, h10,
    rfl⟩ := h
  exact ⟨h1, h2, h3, h4, h5, h7, h8, h9, by rw [h10]; rfl, rfl, rfl, rfl, rfl, rfl⟩

/-- Claim C3 counterexample: the safe-coercion rule is not total.  On a
present value that `float()` cannot coerce (a non-numeric string),
`pd.notna` is true, so `safe` calls `float(val)` and the exception
propagates instead of yielding `0.0`. -/
theorem safe_nonNumeric_raises_cex :
    safe RawValue.nonNumeric = none ∧ safe RawValue.nonNumeric ≠ some 0 :=
  ⟨rfl, by decide⟩

/-- Claim C3 (amended): for raw values that are missing/null, NaN, or
numeric, `safe` never raises: it returns `float(value)` for numeric values
and exactly `0.0` for missing/null/NaN values; on a present non-coercible
value it raises. -/
theorem safe_coercion_amended :
    safe RawValue.null = some 0 ∧ safe RawValue.nan = some 0 ∧
    (∀ q : ℚ, safe (RawValue.num q) = some q) ∧
    safe RawValue.nonNumeric = none :=
  ⟨rfl, rfl, fun _ => rfl, rfl⟩

/-- Claim C4 counterexample: a negative source value passes through `safe`
into the resolved record unchanged, so a resolved field can be negative. -/
theorem resolved_field_negative_cex :
    ∃ r, buildReport negRow = some r ∧ r.sw_gen = -5 ∧ r.sw_gen < 0 :=
  ⟨_, rfl, rfl, by norm_num⟩

/-- Claim C4 (amended): every numeric field of a resolved record is
exactly the safe coercion of its source cell — a well-defined rational
(hence never NaN), equal to `0.0` when the source value is absent/null or
NaN — but it is not guaranteed non-negative: negative source values pass
through. -/
theorem resolved_fields_amended (row : RawRow) (r : Report) (h : buildReport row = some r) :
    (safe row.census_pop = some r.census_pop ∧
      safe row.sw_gen = some r.sw_gen ∧
      safe row.sw_proc = some r.sw_proc ∧
      safe row.sw_gap = some r.sw_gap ∧
      safe row.sewage_gen = some r.sewage_gen ∧
      safe row.pop_2025 = some r.pop_2025 ∧
      safe row.pw = some r.pw ∧
      safe row.cd = some r.cd ∧
      (safe row.ew).map (fun q => q / 365) = some r.ew_daily) ∧
    (∀ v : RawValue, v = RawValue.null ∨ v = RawValue.nan → safe v = some 0) := by
  obtain ⟨h1, h2, h3, h4, h5, h6, h7, h8, h9, _⟩ := buildReport_fields row r h
  refine ⟨⟨h1, h2, h3, h4, h5, h6, h7, h8, h9⟩, ?_⟩
  rintro v (rfl | rfl) <;> rfl

/-- Claim C4 witness: the amended field equations hold at a concrete row. -/
theorem resolved_fields_amended_witness :
    ∃ r, buildReport okRow = some r ∧
      ((safe okRow.census_pop = some r.census_pop ∧
        safe okRow.sw_gen = some r.sw_gen ∧
        safe okRow.sw_proc = some r.sw_proc ∧
        safe okRow.sw_gap = some r.sw_gap ∧
        safe okRow.sewage_gen = some r.sewage_gen ∧
        safe okRow.pop_2025 = some r.pop_2025 ∧
        safe okRow.pw = some r.pw ∧
        safe okRow.cd = some r.cd ∧
        (safe okRow.ew).map (fun q => q / 365) = some r.ew_daily) ∧
      (∀ v : RawValue, v = RawValue.null ∨ v = RawValue.nan → safe v = some 0)) :=
  ⟨_, rfl, resolved_fields_amended okRow _ rfl⟩

/-- Claim C2: the required capacity handed to the fleet optimizer is the
resolved `sw_gen` (total waste generated), not the collection gap: the
plan stored in the report is the optimizer applied to the report's
`sw_gen` field, which is the safe coercion of the raw generation cell. -/
theorem required_capacity_is_generation (row : RawRow) (r : Report)
    (h : buildReport row = some r) :
    r.plan = optimize r.sw_gen deploymentCatalog ∧ safe row.sw_gen = some r.sw_gen := by
  obtain ⟨-, h2, -, -, -, -, -, -, -, -, -, -, -, h14⟩ := buildReport_fields row r h
  exact ⟨h14, h2⟩

/-- Claim C2 witness: the plan of a concretely built report is the
optimizer applied to its generation figure. -/
theorem required_capacity_is_generation_witness :
    ∃ r, buildReport okRow = some r ∧
      (r.plan = optimize r.sw_gen deploymentCatalog ∧ safe okRow.sw_gen = some r.sw_gen) :=
  ⟨_, rfl, required_capacity_is_generation okRow _ rfl⟩

/-- Claim C5: the forecast engine computes the CAGR as
`(P / C) ^ (1/14) - 1` for positive census population and `0` otherwise,
and the six projected values are `P * (1 + cagr) ^ (Y - 2025)` for
`Y = 2025..2030`; in particular the base-year value is exactly `P`. -/
theorem forecast_formula_and_base_year (C P : ℝ) :
    CAGR C P = (if 0 < C then (P / C) ^ ((1 : ℝ) / 14) - 1 else 0) ∧
    pop_forecast_values C P =
      [P, P * (1 + CAGR C P), P * (1 + CAGR C P) ^ (2 : ℕ), P * (1 + CAGR C P) ^ (3 : ℕ),
        P * (1 + CAGR C P) ^ (4 : ℕ), P * (1 + CAGR C P) ^ (5 : ℕ)] ∧
    (pop_forecast_values C P).head? = some P := by
  refine ⟨by norm_num [CAGR], ?_, ?_⟩
  · simp only [pop_forecast_values, years, List.range', List.map_cons, List.map_nil]
    norm_num
  · simp only [pop_forecast_values, years, List.range', List.map_cons, List.head?_cons]
    norm_num

/-- Claim C6: with census population `0` the CAGR guard forces a flat
forecast equal to the projected 2025 population for every horizon year. -/
theorem forecast_flat_census_zero (P : ℝ) :
    pop_forecast_values 0 P = List.replicate 6 P := by
  have hc : CAGR 0 P = 0 := by rw [CAGR, if_neg (lt_irrefl 0)]
  simp [pop_forecast_values, hc, years, List.range', List.replicate]

/-- Claim C7: the pie quantities are `min(p, g)` and `g - min(p, g)`, both
non-negative, and they sum exactly to `g`; the processed percent is the
guarded ratio capped at 100 and always lies in `[0, 100]`. -/
theorem ratios_sum_and_bounds (g p : ℚ) (hg : 0 ≤ g) (hp : 0 ≤ p) :
    proc_pie g p = min p g ∧
    gap_pie g p = g - min p g ∧
    0 ≤ proc_pie g p ∧
    0 ≤ gap_pie g p ∧
    proc_pie g p + gap_pie g p = g ∧
    processed_percent g p = min (if 0 < g then p / g * 100 else 0) 100 ∧
    0 ≤ processed_percent g p ∧ processed_percent g p ≤ 100 := by
  have hraw : 0 ≤ (if 0 < g then p / g * 100 else 0) := by
    split
    · positivity
    · exact le_refl 0
  have hmin : processed_percent g p = min (if 0 < g then p / g * 100 else 0) 100 := by
    rw [processed_percent]
    rcases lt_or_le (100 : ℚ) (if 0 < g then p / g * 100 else 0) with hcase | hcase
    · rw [if_pos hcase, min_eq_right hcase.le]
    · rw [if_neg (not_lt.mpr hcase), min_eq_left hcase]
  refine ⟨rfl, rfl, le_min hp hg, sub_nonneg.mpr (min_le_right p g), by
    rw [proc_pie, gap_pie, proc_pie]; ring, hmin, ?_, ?_⟩
  · rw [hmin]
    exact le_min hraw (by norm_num)
  · rw [hmin]
    exact min_le_right _ _

/-- Claim C7 witness: the ratio properties at `g = 10`, `p = 4`. -/
theorem ratios_sum_and_bounds_witness :
    proc_pie 10 4 = min 4 10 ∧
    gap_pie 10 4 = 10 - min 4 10 ∧
    0 ≤ proc_pie 10 4 ∧
    0 ≤ gap_pie 10 4 ∧
    proc_pie 10 4 + gap_pie 10 4 = 10 ∧
    processed_percent 10 4 = min (if (0 : ℚ) < 10 then 4 / 10 * 100 else 0) 100 ∧
    0 ≤ processed_percent 10 4 ∧ processed_percent 10 4 ≤ 100 :=
  ratios_sum_and_bounds 10 4 (by norm_num) (by norm_num)

/-- Claim C10 counterexample: the unused decadal growth-rate cell does
influence the output through the exception channel: a present
non-coercible value in that column aborts the build (`float()` raises in
`safe`) although the value is never displayed, so two rows differing only
in that field can produce different results. -/
theorem growth_rate_exception_cex :
    buildReport { okRow with growth_rate := RawValue.nonNumeric } = none ∧
    (buildReport okRow).isSome = true ∧
    buildReport { okRow with growth_rate := RawValue.nonNumeric } ≠ buildReport okRow ∧
    RawValue.nonNumeric ≠ okRow.growth_rate := by
  refine ⟨rfl, rfl, ?_, by decide⟩
  intro h
  have h1 : buildReport { okRow with growth_rate := RawValue.nonNumeric } = none := rfl
  rw [h1] at h
  have h2 : (buildReport okRow).isSome = true := rfl
  rw [← h] at h2
  exact Bool.noConfusion h2

/-- Claim C10 (amended): the growth-rate cell is read but never used, so
whenever its safe coercion succeeds the built report is entirely
independent of it: any two rows that differ only in that field and whose
growth-rate cells both coerce produce identical reports. -/
theorem growth_rate_no_influence (rowB : RawRow) (g : RawValue)
    (hA : (safe g).isSome = true) (hB : (safe rowB.growth_rate).isSome = true) :
    buildReport { rowB with growth_rate := g } = buildReport rowB := by
  obtain ⟨gA, hgA⟩ := Option.isSome_iff_exists.mp hA
  obtain ⟨gB, hgB⟩ := Option.isSome_iff_exists.mp hB
  simp only [buildReport, hgA, hgB, Option.some_bind]

/-- Claim C10 witness: changing only the growth-rate cell between two
coercible values leaves the report unchanged. -/
theorem growth_rate_no_influence_witness :
    buildReport { okRow with growth_rate := RawValue.num 7 } = buildReport okRow :=
  growth_rate_no_influence okRow (RawValue.num 7) rfl rfl

/-- Each summand of a dot product with non-negative weights is non-negative,
so the whole sum is. -/
theorem dot_nonneg (f : ℚ × ℚ → ℚ) :
    ∀ (catalog : List (ℚ × ℚ)) (counts : List ℕ), (∀ v ∈ catalog, 0 ≤ f v) →
      0 ≤ (List.zipWith (fun (v : ℚ × ℚ) (c : ℕ) => f v * (c : ℚ)) catalog counts).sum
  | [], _, _ => by simp
  | _ :: _, [], _ => by simp
  | v :: vs, c :: cs, h => by
    simp only [List.zipWith_cons_cons, List.sum_cons]
    have h1 : 0 ≤ f v * (c : ℚ) :=
      mul_nonneg (h v (List.mem_cons_self _ _)) (Nat.cast_nonneg c)
    have h2 := dot_nonneg f vs cs fun w hw => h w (List.mem_cons_of_mem _ hw)
    linarith

/-- A dot product with non-negative weights is monotone in the counts. -/
theorem dot_mono (f : ℚ × ℚ → ℚ) (catalog : List (ℚ × ℚ)) (c₁ c₂ : List ℕ)
    (hf : ∀ v ∈ catalog, 0 ≤ f v) (hle : List.Forall₂ (· ≤ ·) c₁ c₂) :
    (List.zipWith (fun (v : ℚ × ℚ) (c : ℕ) => f v * (c : ℚ)) catalog c₁).sum ≤
      (List.zipWith (fun (v : ℚ × ℚ) (c : ℕ) => f v * (c : ℚ)) catalog c₂).sum := by
  induction hle generalizing catalog with
  | nil => simp
  | @cons a b as bs hab hrest ih =>
    cases catalog with
    | nil => simp
    | cons v vs =>
      simp only [List.zipWith_cons_cons, List.sum_cons]
      have h1 : f v * (a : ℚ) ≤ f v * (b : ℚ) :=
        mul_le_mul_of_nonneg_left (by exact_mod_cast hab) (hf v (List.mem_cons_self _ _))
      have h2 := ih vs fun w hw => hf w (List.mem_cons_of_mem _ hw)
      linarith

/-- One summand of a dot product with non-negative weights is at most the
whole sum. -/
theorem dot_single_le (f : ℚ × ℚ → ℚ) :
    ∀ (catalog : List (ℚ × ℚ)) (counts : List ℕ), (∀ v ∈ catalog, 0 ≤ f v) →
      ∀ (i : ℕ) (h1 : i < catalog.length) (h2 : i < counts.length),
      f (catalog.get ⟨i, h1⟩) * ((counts.get ⟨i, h2⟩ : ℕ) : ℚ) ≤
        (List.zipWith (fun (v : ℚ × ℚ) (c : ℕ) => f v * (c : ℚ)) catalog counts).sum
  | [], _, _, i, h1, _ => absurd h1 (by simp)
  | _ :: _, [], _, i, _, h2 => absurd h2 (by simp)
  | v :: vs, c :: cs, h, 0, h1, h2 => by
    simp only [List.get_cons_zero, List.zipWith_cons_cons, List.sum_cons]
    exact le_add_of_nonneg_right (dot_nonneg f vs cs fun w hw => h w (List.mem_cons_of_mem _ hw))
  | v :: vs, c :: cs, h, Nat.succ k, h1, h2 => by
    simp only [List.get_cons_succ, List.zipWith_cons_cons, List.sum_cons]
    have h0 : 0 ≤ f v * (c : ℚ) :=
      mul_nonneg (h v (List.mem_cons_self _ _)) (Nat.cast_nonneg c)
    have ih := dot_single_le f vs cs (fun w hw => h w (List.mem_cons_of_mem _ hw)) k
      (Nat.lt_of_succ_lt_succ h1) (Nat.lt_of_succ_lt_succ h2)
    linarith

/-- `ceil(R / cap)` vehicles of a positive-capacity type cover `R`. -/
theorem perTypeBound_covers {R cap : ℚ} (hR : 0 < R) (hcap : 0 < cap) :
    R ≤ cap * ((perTypeBound R cap : ℕ) : ℚ) := by
  have hpos : (0 : ℚ) < R / cap := div_pos hR hcap
  have hceil : 0 < ⌈R / cap⌉ := Int.ceil_pos.mpr hpos
  have hnat : ((⌈R / cap⌉.toNat : ℕ) : ℤ) = ⌈R / cap⌉ := Int.toNat_of_nonneg hceil.le
  have hcast : ((perTypeBound R cap : ℕ) : ℚ) = ((⌈R / cap⌉ : ℤ) : ℚ) := by
    rw [perTypeBound]
    exact_mod_cast congrArg (fun z : ℤ => (z : ℚ)) hnat
  rw [hcast]
  have hle : R / cap ≤ ((⌈R / cap⌉ : ℤ) : ℚ) := Int.le_ceil _
  calc R = cap * (R / cap) := by field_simp
    _ ≤ cap * ((⌈R / cap⌉ : ℤ) : ℚ) := mul_le_mul_of_nonneg_left hle hcap.le

/-- Membership in the bounded enumeration is exactly componentwise
boundedness. -/
theorem mem_tuples {bs : List ℕ} {t : List ℕ} :
    t ∈ tuples bs ↔ List.Forall₂ (· ≤ ·) t bs := by
  induction bs generalizing t with
  | nil => simp [tuples, List.forall₂_nil_right_iff]
  | cons b bs ih =>
    simp only [tuples, List.mem_flatMap, List.mem_range, List.mem_map, Nat.lt_succ_iff,
      List.forall₂_cons_right_iff, ih]
    constructor
    · rintro ⟨c, hc, t2, ht2, rfl⟩
      exact ⟨c, t2, hc, ht2, rfl⟩
    · rintro ⟨c, t2, hc, ht2, rfl⟩
      exact ⟨c, hc, t2, ht2, rfl⟩

/-- Componentwise minimum with equal-length bounds stays below the bounds. -/
theorem zipWith_min_le_right : ∀ (a b : List ℕ), a.length = b.length →
    List.Forall₂ (· ≤ ·) (List.zipWith min a b) b
  | [], [], _ => by simp
  | [], _ :: _, h => by simp at h
  | _ :: _, [], h => by simp at h
  | x :: xs, y :: ys, h => by
    simp only [List.zipWith_cons_cons]
    exact List.Forall₂.cons (min_le_right x y) (zipWith_min_le_right xs ys (by simpa using h))

/-- Componentwise minimum with equal-length bounds stays below the counts. -/
theorem zipWith_min_le_left : ∀ (a b : List ℕ), a.length = b.length →
    List.Forall₂ (· ≤ ·) (List.zipWith min a b) a
  | [], [], _ => by simp
  | [], _ :: _, h => by simp at h
  | _ :: _, [], h => by simp at h
  | x :: xs, y :: ys, h => by
    simp only [List.zipWith_cons_cons]
    exact List.Forall₂.cons (min_le_left x y) (zipWith_min_le_left xs ys (by simpa using h))

/-- Componentwise minimum is the identity on counts already within the
bounds. -/
theorem zipWith_min_eq_left {a b : List ℕ} (h : List.Forall₂ (· ≤ ·) a b) :
    List.zipWith min a b = a := by
  induction h with
  | nil => rfl
  | @cons x y xs ys hxy hrest ih => simp [List.zipWith_cons_cons, min_eq_left hxy, ih]

theorem length_vbounds (R : ℚ) (catalog : List (ℚ × ℚ)) :
    (vbounds R catalog).length = catalog.length := by simp [vbounds]

/-- The componentwise bounds vector itself satisfies the capacity
constraint for a non-empty positive-capacity catalog. -/
theorem vbounds_capacity (R : ℚ) (catalog : List (ℚ × ℚ)) (hR : 0 < R)
    (hne : catalog ≠ []) (hcap : ∀ v ∈ catalog, 0 < v.1) :
    R ≤ totalCapacity catalog (vbounds R catalog) := by
  match catalog, hne with
  | v :: vs, _ =>
    simp only [totalCapacity, vbounds, List.map_cons, List.zipWith_cons_cons, List.sum_cons]
    have h1 : R ≤ v.1 * ((perTypeBound R v.1 : ℕ) : ℚ) :=
      perTypeBound_covers hR (hcap v (List.mem_cons_self _ _))
    have h2 := dot_nonneg (fun w => w.1) vs (vs.map fun w => perTypeBound R w.1)
      fun w hw => (hcap w (List.mem_cons_of_mem _ hw)).le
    linarith

/-- Any feasible count vector can be truncated into the candidate list
without increasing its cost. -/
theorem truncation (R : ℚ) (catalog : List (ℚ × ℚ)) (counts : List ℕ)
    (hR : 0 < R) (hcap : ∀ v ∈ catalog, 0 < v.1) (hcost : ∀ v ∈ catalog, 0 ≤ v.2)
    (hfeas : Feasible R catalog counts) :
    ∃ counts₂, counts₂ ∈ candidates R catalog ∧
      totalCost catalog counts₂ ≤ totalCost catalog counts := by
  obtain ⟨hlen, hcov⟩ := hfeas
  have hlen2 : counts.length = (vbounds R catalog).length := by
    rw [length_vbounds, hlen]
  refine ⟨List.zipWith min counts (vbounds R catalog), ?_, ?_⟩
  · rw [candidates, List.mem_filter]
    refine ⟨mem_tuples.mpr (zipWith_min_le_right _ _ hlen2), ?_⟩
    rw [decide_eq_true_eq]
    by_cases hall : List.Forall₂ (· ≤ ·) counts (vbounds R catalog)
    · rw [zipWith_min_eq_left hall]
      exact hcov
    · rw [List.forall₂_iff_get] at hall
      push_neg at hall
      obtain ⟨i, hi1, hi2, hgt⟩ := hall hlen2
      have hi3 : i < catalog.length := by rw [← length_vbounds R catalog]; exact hi2
      have hzlen : i < (List.zipWith min counts (vbounds R catalog)).length := by
        rw [List.length_zipWith, hlen2, min_self]
        exact hi2
      have hbget : (vbounds R catalog).get ⟨i, hi2⟩ =
          perTypeBound R ((catalog.get ⟨i, hi3⟩).1) := by
        simp [vbounds, List.get_map]
      have hget : (List.zipWith min counts (vbounds R catalog)).get ⟨i, hzlen⟩ =
          perTypeBound R ((catalog.get ⟨i, hi3⟩).1) := by
        rw [List.get_zipWith, min_eq_right (le_of_lt hgt), hbget]
      have hsingle := dot_single_le (fun v => v.1) catalog
        (List.zipWith min counts (vbounds R catalog))
        (fun w hw => (hcap w hw).le) i hi3 hzlen
      rw [hget] at hsingle
      have hcover : R ≤ (catalog.get ⟨i, hi3⟩).1 *
          ((perTypeBound R ((catalog.get ⟨i, hi3⟩).1) : ℕ) : ℚ) :=
        perTypeBound_covers hR (hcap _ (List.get_mem _ _ _))
      exact le_trans hcover hsingle
  · exact dot_mono (fun v => v.2) catalog _ counts hcost (zipWith_min_le_left _ _ hlen2)

/-- Claim C1: for positive required capacity and a (non-empty) catalog of
positive capacities and non-negative costs, the optimizer returns one
non-negative integer count per vehicle type whose total capacity covers
the requirement, no feasible assignment has strictly lower total cost,
and the reported cost is the exact dot product of the chosen counts with
the catalog costs. -/
theorem optimize_feasible_and_optimal (R : ℚ) (catalog : List (ℚ × ℚ))
    (hR : 0 < R) (hne : catalog ≠ [])
    (hcap : ∀ v ∈ catalog, 0 < v.1) (hcost : ∀ v ∈ catalog, 0 ≤ v.2) :
    ∃ counts, optimize R catalog = some (counts, totalCost catalog counts) ∧
      Feasible R catalog counts ∧
      ∀ other, Feasible R catalog other →
        totalCost catalog counts ≤ totalCost catalog other := by
  have hRn : ¬ R ≤ 0 := not_le.mpr hR
  have hbmem : vbounds R catalog ∈ candidates R catalog := by
    rw [candidates, List.mem_filter]
    refine ⟨mem_tuples.mpr (List.forall₂_refl _), ?_⟩
    rw [decide_eq_true_eq]
    exact vbounds_capacity R catalog hR hne hcap
  cases hmin : (candidates R catalog).argmin (totalCost catalog) with
  | none =>
    rw [List.argmin_eq_none] at hmin
    rw [hmin] at hbmem
    exact absurd hbmem (List.not_mem_nil _)
  | some t =>
    have htmem : t ∈ candidates R catalog := List.argmin_mem (Option.mem_def.mpr hmin)
    rw [candidates, List.mem_filter] at htmem
    obtain ⟨htup, hfeasb⟩ := htmem
    rw [decide_eq_true_eq] at hfeasb
    have hlen : t.length = catalog.length := by
      have hl := (mem_tuples.mp htup).length_eq
      rw [length_vbounds] at hl
      exact hl
    refine ⟨t, ?_, ⟨hlen, hfeasb⟩, ?_⟩
    · rw [optimize, if_neg hRn, hmin]
    · intro other hother
      obtain ⟨c₂, hc₂mem, hc₂cost⟩ := truncation R catalog other hR hcap hcost hother
      exact le_trans (List.le_of_mem_argmin hc₂mem (Option.mem_def.mpr hmin)) hc₂cost

/-- Claim C1 witness: the optimizer result at the worked example of the
specification, required capacity `43.6` against the deployment catalog. -/
theorem optimize_feasible_and_optimal_witness :
    ∃ counts, optimize (218/5) deploymentCatalog =
        some (counts, totalCost deploymentCatalog counts) ∧
      Feasible (218/5) deploymentCatalog counts ∧
      ∀ other, Feasible (218/5) deploymentCatalog other →
        totalCost deploymentCatalog counts ≤ totalCost deploymentCatalog other :=
  optimize_feasible_and_optimal (218/5) deploymentCatalog (by norm_num)
    (by simp [deploymentCatalog]) (by norm_num [deploymentCatalog])
    (by norm_num [deploymentCatalog])

/-- Claim C8: a non-positive required capacity is answered by the base
case: zero vehicles of every type at total cost exactly `0`. -/
theorem optimize_zero_required (R : ℚ) (catalog : List (ℚ × ℚ)) (hR : R ≤ 0) :
    ∃ counts, optimize R catalog = some (counts, 0) ∧
      counts.length = catalog.length ∧ ∀ n ∈ counts, n = 0 := by
  refine ⟨catalog.map fun _ => 0, ?_, by simp, by simp⟩
  rw [optimize, if_pos hR]

/-- Claim C8 witness: required capacity `0` against the deployment catalog
yields the all-zero plan at cost `0`. -/
theorem optimize_zero_required_witness :
    ∃ counts, optimize 0 deploymentCatalog = some (counts, 0) ∧
      counts.length = deploymentCatalog.length ∧ ∀ n ∈ counts, n = 0 :=
  optimize_zero_required 0 deploymentCatalog (le_refl 0)

/-- Claim C9: a query whose normalized (lowercased, stripped) name matches
no stored row yields the distinct no-data output — which is a different
constructor from any rendered report, never a zero-filled report — while a
stored name that agrees with the query up to case and surrounding
whitespace (i.e. after normalization) guarantees the lookup finds a
matching record. -/
theorem lookup_insensitive_and_no_data (db : List (String × RawRow)) (q : String) :
    ((∀ p ∈ db, normalizeName p.1 ≠ normalizeName q) →
      updateDashboard db (some q) = DashOutput.noData) ∧
    (∀ name row, (name, row) ∈ db → normalizeName name = normalizeName q →
      ∃ row₂ name₂, lookup_district db q = some row₂ ∧ (name₂, row₂) ∈ db ∧
        normalizeName name₂ = normalizeName q) ∧
    (∀ name r, DashOutput.noData ≠ DashOutput.report name r) := by
  refine ⟨?_, ?_, fun name r h => DashOutput.noConfusion h⟩
  · intro hnone
    have hf : (db.find? fun p => normalizeName p.1 == normalizeName q) = none :=
      List.find?_eq_none.mpr fun p hp => by simpa [beq_iff_eq] using hnone p hp
    simp [updateDashboard, lookup_district, hf]
  · intro name row hmem hnorm
    have hsome : (db.find? fun p => normalizeName p.1 == normalizeName q).isSome := by
      rw [List.find?_isSome]
      exact ⟨(name, row), hmem, by simpa [beq_iff_eq] using hnorm⟩
    obtain ⟨p₂, hp₂⟩ := Option.isSome_iff_exists.mp hsome
    refine ⟨p₂.2, p₂.1, ?_, ?_, ?_⟩
    · rw [lookup_district, hp₂]
      rfl
    · simpa using List.mem_of_find?_eq_some hp₂
    · simpa [beq_iff_eq] using List.find?_some hp₂

/-- Claim C9 witness: `"bhopal"` does not match the table holding only
Indore and yields the no-data output, while `" BHOPAL "` finds the record
stored under `"Bhopal"`. -/
theorem lookup_insensitive_and_no_data_witness :
    updateDashboard demoDbOther (some "bhopal") = DashOutput.noData ∧
    (∃ row₂ name₂, lookup_district demoDbBhopal " BHOPAL " = some row₂ ∧
      (name₂, row₂) ∈ demoDbBhopal ∧ normalizeName name₂ = normalizeName " BHOPAL ") :=
  ⟨(lookup_insensitive_and_no_data demoDbOther "bhopal").1 (by decide),
    (lookup_insensitive_and_no_data demoDbBhopal " BHOPAL ").2.1 "Bhopal" okRow
      (by decide) (by decide)⟩

end MPWaste
